import Mathlib

/-!
Verification of the A2F WebSocket bridge (`a2f-ws-bridge.py`).

The bridge keeps a global set `connected_clients` of viewer handles,
receives frame batches over HTTP POST `/frames`, and `stream_frames`
paces a broadcast of each frame to every connected client, finishing
with a terminal marker `{"end": true, "total_frames": N}`.

Shallow embedding: the cooperative-concurrency run of `stream_frames`
is modelled as the list of externally observable events it performs
(per-client send attempts and pacing sleeps).  Because the coroutine
reads the live global client set anew at each loop iteration (each
`await` is a point where other tasks may mutate the set), the registry
is modelled as an oracle `regAt : Nat → List Nat` giving the contents
of `connected_clients` observed at loop tick `i`; tick `frames.length`
is the read performed for the terminal broadcast.  Likewise
`time.time()` observed at the pacing computation of iteration `i` is
the oracle `timeAt i`, and the success of the send to client `c`
issued at tick `i` is `sendOk i c` (failures are swallowed by
`asyncio.gather(..., return_exceptions=True)` and only recorded).
Python float division `1.0 / fps` raises `ZeroDivisionError` at
`fps = 0`, modelled by `frame_interval_of` returning `none`; the whole
run then crashes, so `stream_frames` returns an `Option` trace.
Times and rates are modelled as rationals.
-/

namespace A2FBridge

/-- Wire messages sent to a viewer: a serialized frame (payload opaque,
type `α`), the terminal marker `{"end": true, "total_frames": n}`, or a
status broadcast `{"status": text, "type": "status"}` (the `text` field is
whatever JSON value `data.get("text", "")` produced). -/
inductive JValue where
  | num (q : ℚ)
  | str (s : String)
  | bool (b : Bool)
  | null
  | arr (elems : List JValue)
  | obj (fields : List (String × JValue))

inductive Msg (α : Type) where
  | frame (payload : α)
  | endMarker (total_frames : Nat)
  | status (text : JValue)

/-- An externally observable event of a streaming run: a send attempt to
one client (with its success flag) or a pacing sleep. -/
inductive Event (α : Type) where
  | send (client : Nat) (msg : Msg α) (ok : Bool)
  | sleep (duration : ℚ)

/-- The environment a run of `stream_frames` interacts with: the contents
of the global `connected_clients` set observed at tick `i`, whether the
send issued at tick `i` to client `c` succeeds, and the `time.time()`
value observed at the pacing step of iteration `i`. -/
structure Env (α : Type) where
  regAt : Nat → List Nat
  sendOk : Nat → Nat → Bool
  timeAt : Nat → ℚ

/-- `asyncio.gather(*[client.send(msg) for client in reg], return_exceptions=True)`:
one send attempt per registered client, failures recorded, never raised. -/
def broadcastTo {α : Type} (reg : List Nat) (m : Msg α) (ok : Nat → Bool) : List (Event α) :=
  reg.map (fun c => Event.send c m (ok c))

/-- Lines 53–56: `target_time = start_time + (i + 1) * frame_interval`;
`delay = target_time - time.time()`; `if delay > 0: await asyncio.sleep(delay)`. -/
def pacingEvents {α : Type} (frame_interval start_time : ℚ) (i : Nat) (now : ℚ) :
    List (Event α) :=
  let target_time := start_time + ((i : ℚ) + 1) * frame_interval
  let delay := target_time - now
  if 0 < delay then [Event.sleep delay] else []

/-- The `for i, frame in enumerate(frames)` loop of `stream_frames`
(lines 47–56), started at index `i`. -/
def streamLoop {α : Type} (frame_interval start_time : ℚ) (env : Env α) :
    Nat → List α → List (Event α)
  | _, [] => []
  | i, f :: rest =>
      broadcastTo (env.regAt i) (Msg.frame f) (env.sendOk i)
        ++ pacingEvents frame_interval start_time i (env.timeAt i)
        ++ streamLoop frame_interval start_time env (i + 1) rest

/-- `frame_interval = 1.0 / fps` (line 43); Python raises
`ZeroDivisionError` when `fps` is zero. -/
def frame_interval_of (fps : ℚ) : Option ℚ :=
  if fps = 0 then none else some (1 / fps)

/-- `stream_frames(frames, fps)` (lines 37–63): skip when no client is
connected; otherwise compute the interval, broadcast each frame with
pacing, then broadcast the terminal marker
`{"end": true, "total_frames": len(frames)}` to the clients connected at
that moment.  `none` models the run crashing on `ZeroDivisionError`. -/
def stream_frames {α : Type} (frames : List α) (fps : ℚ) (start_time : ℚ) (env : Env α) :
    Option (List (Event α)) :=
  if env.regAt 0 = [] then some []
  else
    match frame_interval_of fps with
    | none => none
    | some interval =>
        some (streamLoop interval start_time env 0 frames
          ++ broadcastTo (env.regAt frames.length) (Msg.endMarker frames.length)
              (env.sendOk frames.length))

/-- The pacing sleeps of a trace, in order. -/
def sleepsOf {α : Type} (tr : List (Event α)) : List ℚ :=
  tr.filterMap fun e =>
    match e with
    | Event.sleep d => some d
    | Event.send _ _ _ => none

/-- All send attempts of a trace, in order, as (client, message) pairs. -/
def sendsOf {α : Type} (tr : List (Event α)) : List (Nat × Msg α) :=
  tr.filterMap fun e =>
    match e with
    | Event.send c m _ => some (c, m)
    | Event.sleep _ => none

/-- The messages successfully delivered to client `c`, in order. -/
def receivedBy {α : Type} (c : Nat) (tr : List (Event α)) : List (Msg α) :=
  tr.filterMap fun e =>
    match e with
    | Event.send c' m true => if c' = c then some m else none
    | _ => none

/-! ## Viewer session (`ws_handler`, lines 24–34)

The handler adds the socket to `connected_clients`, drains inbound
messages (ignoring them), and in a `finally` block discards the socket
from the set.  The receive loop can end three ways: the iterator
finishes, `ConnectionClosed` is raised (caught by the `except`), or
some other exception propagates — the `finally` discard runs in every
case. -/

/-- How the `async for msg in websocket` receive loop terminated. -/
inductive RecvEnd where
  | finished
  | connClosed
  | otherError

/-- `connected_clients.add(websocket)`: set insertion (no duplicate). -/
def addClient (c : Nat) (reg : List Nat) : List Nat :=
  if c ∈ reg then reg else reg ++ [c]

/-- `connected_clients.discard(websocket)`: set removal, no-op if absent. -/
def discardClient (c : Nat) (reg : List Nat) : List Nat :=
  reg.filter (fun x => x ≠ c)

/-- `ws_handler(websocket)`: the registry after the handler for client `c`
completes, together with whether the handler itself re-raised an
exception (`ConnectionClosed` is caught; anything else propagates after
the `finally` discard). -/
def ws_handler (c : Nat) (reg : List Nat) (e : RecvEnd) : List Nat × Bool :=
  let reg1 := addClient c reg
  match e with
  | RecvEnd.finished => (discardClient c reg1, false)
  | RecvEnd.connClosed => (discardClient c reg1, false)
  | RecvEnd.otherError => (discardClient c reg1, true)

/-! ## Ingest endpoint (`http_handler`, lines 66–114)

The `/frames` branch (lines 91–103): with a positive `Content-Length`
the body is read and `json.loads`-parsed; `data.get("frames", [])` and
`data.get("fps", FPS)` are extracted and `stream_frames` is spawned as a
background task, with response `200 {"status": "streaming", ...}`;
with no body the response is `400 Bad Request`.  Any exception in the
branch (unparseable JSON, `.get` on a non-dict) is caught by the
handler-wide `except`, which logs and closes the writer WITHOUT writing
any response.  JSON parsing itself is the standard library's; it is
taken as an abstract `parse : String → Option JValue` parameter
(`none` = `json.loads` raised). -/

/-- `data.get(key)`: first binding of `key` in a parsed JSON object. -/
def jGet (fields : List (String × JValue)) (key : String) : Option JValue :=
  (fields.find? (fun p => p.1 = key)).map (fun p => p.2)

/-- Module-level default `FPS = 30` (line 21). -/
def FPS : ℚ := 30

/-- Outcome of the `/frames` branch: `badRequest` = `400` written, no
stream; `streaming frames fps` = `200` written and
`stream_frames(frames, fps)` spawned; `crashed` = an exception reached
the handler-wide `except`, so no response was written and no stream was
started. -/
inductive IngestOutcome where
  | badRequest
  | streaming (frames : JValue) (fps : JValue)
  | crashed

/-- The `/frames` branch of `http_handler` (lines 91–103). -/
def frames_ingest (parse : String → Option JValue) (content_length : Nat) (body : String) :
    IngestOutcome :=
  if 0 < content_length then
    match parse body with
    | some (JValue.obj fields) =>
        IngestOutcome.streaming ((jGet fields "frames").getD (JValue.arr []))
          ((jGet fields "fps").getD (JValue.num FPS))
    | some _ => IngestOutcome.crashed
    | none => IngestOutcome.crashed
  else IngestOutcome.badRequest

/-- Does the outcome spawn a `stream_frames` run? -/
def startsStream : IngestOutcome → Bool
  | IngestOutcome.streaming _ _ => true
  | _ => false

/-- Does the outcome write a client-error (4xx) response? -/
def respondsClientError : IngestOutcome → Bool
  | IngestOutcome.badRequest => true
  | _ => false

/-- Does the outcome write any HTTP response at all?  (`crashed` closes
the connection without writing one.) -/
def writesResponse : IngestOutcome → Bool
  | IngestOutcome.crashed => false
  | _ => true

/-! ## Status branch (`http_handler`, lines 79–89)

With a positive `Content-Length` the body is read, else `b"{}"` is
used; the parsed object's `"text"` field (default `""`) is wrapped as
`{"status": text, "type": "status"}` and broadcast to
`connected_clients` via an awaited `asyncio.gather`; only after that
does the handler build and write the `200 {"ok": true}` response.  An
unparseable body or non-dict payload raises, reaching the handler-wide
`except`: no broadcast completion, no response. -/

/-- An action of the status branch, in program order: an observable
event (send of the status message; the branch contains no sleep) or the
write of the `200 {"ok": true}` response. -/
inductive HAction (α : Type) where
  | ev (e : Event α)
  | writeOkResponse

/-- The `/status` branch of `http_handler` (lines 79–89), returning the
ordered list of its actions, or `none` when an exception aborts the
branch before any response is written. -/
def status_handler {α : Type} (parse : String → Option JValue) (content_length : Nat)
    (body : String) (reg : List Nat) (sendOk : Nat → Bool) : Option (List (HAction α)) :=
  let b := if 0 < content_length then body else "{}"
  match parse b with
  | some (JValue.obj fields) =>
      let text := (jGet fields "text").getD (JValue.str "")
      some ((broadcastTo reg (Msg.status text) sendOk).map HAction.ev
        ++ [HAction.writeOkResponse])
  | some _ => none
  | none => none

/-! ## Derived notions used by the verification -/

/-- A trace with every event involving client `b` removed: what the run
looks like to everyone else. -/
def exceptClient {α : Type} (b : Nat) (tr : List (Event α)) : List (Event α) :=
  tr.filter fun e =>
    match e with
    | Event.send c _ _ => c != b
    | Event.sleep _ => true

/-- The environment in which viewer `b` is absent from every registry
snapshot (same send outcomes and clock for everyone else). -/
def eraseViewer {α : Type} (b : Nat) (env : Env α) : Env α :=
  { env with regAt := fun i => discardClient b (env.regAt i) }

/-- Is this event a terminal-marker send attempt directed at client `c`? -/
def isEndMarkerSendTo {α : Type} (c : Nat) (e : Event α) : Bool :=
  match e with
  | Event.send c' (Msg.endMarker _) _ => c' == c
  | _ => false

/-- How many terminal-marker send attempts a trace directs at client `c`. -/
def endMarkerSendsTo {α : Type} (c : Nat) (tr : List (Event α)) : Nat :=
  (tr.filter (isEndMarkerSendTo c)).length

/-! ## Basic trace lemmas -/

theorem sleepsOf_append {α : Type} (x y : List (Event α)) :
    sleepsOf (x ++ y) = sleepsOf x ++ sleepsOf y :=
  List.filterMap_append x y _

theorem sendsOf_append {α : Type} (x y : List (Event α)) :
    sendsOf (x ++ y) = sendsOf x ++ sendsOf y :=
  List.filterMap_append x y _

theorem receivedBy_append {α : Type} (c : Nat) (x y : List (Event α)) :
    receivedBy c (x ++ y) = receivedBy c x ++ receivedBy c y :=
  List.filterMap_append x y _

theorem sleepsOf_broadcastTo {α : Type} (reg : List Nat) (m : Msg α) (ok : Nat → Bool) :
    sleepsOf (broadcastTo reg m ok) = [] := by
  induction reg with
  | nil => rfl
  | cons a as ih => simp [broadcastTo, sleepsOf]

theorem sendsOf_broadcastTo {α : Type} (reg : List Nat) (m : Msg α) (ok : Nat → Bool) :
    sendsOf (broadcastTo reg m ok) = reg.map (fun c => (c, m)) := by
  induction reg with
  | nil => rfl
  | cons a as ih => simpa [broadcastTo, sendsOf] using ih

theorem sleepsOf_pacingEvents {α : Type} (itv st : ℚ) (i : Nat) (now : ℚ) :
    sleepsOf (pacingEvents (α := α) itv st i now) =
      if now < st + ((i : ℚ) + 1) * itv
      then [st + ((i : ℚ) + 1) * itv - now] else [] := by
  unfold pacingEvents
  by_cases h : (0 : ℚ) < st + ((i : ℚ) + 1) * itv - now
  · rw [if_pos h, if_pos (by linarith)]
    rfl
  · rw [if_neg h, if_neg (by intro hc; exact h (by linarith))]
    rfl

theorem sendsOf_pacingEvents {α : Type} (itv st : ℚ) (i : Nat) (now : ℚ) :
    sendsOf (pacingEvents (α := α) itv st i now) = [] := by
  unfold pacingEvents
  by_cases h : (0 : ℚ) < st + ((i : ℚ) + 1) * itv - now
  · rw [if_pos h]
    rfl
  · rw [if_neg h]
    rfl

theorem receivedBy_pacingEvents {α : Type} (c : Nat) (itv st : ℚ) (i : Nat) (now : ℚ) :
    receivedBy c (pacingEvents (α := α) itv st i now) = [] := by
  unfold pacingEvents
  by_cases h : (0 : ℚ) < st + ((i : ℚ) + 1) * itv - now
  · rw [if_pos h]
    rfl
  · rw [if_neg h]
    rfl

/-- Claim C4: if the client registry is empty when the run starts,
`stream_frames` returns immediately: its trace is empty — no frame
sends, no terminal marker, and no pacing sleep (this holds for every
`fps`, including `0`, because the emptiness check precedes the interval
computation). -/
theorem C4_no_viewer_skip {α : Type} (frames : List α) (fps st : ℚ) (env : Env α)
    (hreg : env.regAt 0 = []) :
    stream_frames frames fps st env = some [] := by
  unfold stream_frames
  rw [if_pos hreg]

theorem C4_no_viewer_skip_witness :
    stream_frames ([3] : List Nat) 30 0
      ⟨fun _ => [], fun _ _ => true, fun _ => 0⟩ = some [] :=
  C4_no_viewer_skip [3] 30 0 ⟨fun _ => [], fun _ _ => true, fun _ => 0⟩ rfl

/-- Claim C10: for an empty frame list with a non-empty registry (and a
rate that does not crash the interval computation), `stream_frames`
sends no frame messages but still broadcasts the terminal marker
`{"end": true, "total_frames": 0}` to the registered viewers. -/
theorem C10_empty_batch_terminates {α : Type} (fps st : ℚ) (env : Env α)
    (hreg : env.regAt 0 ≠ []) (hfps : fps ≠ 0) :
    stream_frames ([] : List α) fps st env =
      some (broadcastTo (env.regAt 0) (Msg.endMarker 0) (env.sendOk 0)) ∧
    ∀ c, c ∈ env.regAt 0 →
      Event.send c (Msg.endMarker 0) (env.sendOk 0 c) ∈
        broadcastTo (α := α) (env.regAt 0) (Msg.endMarker 0) (env.sendOk 0) := by
  constructor
  · unfold stream_frames frame_interval_of
    rw [if_neg hreg, if_neg hfps]
    rfl
  · intro c hc
    exact List.mem_map.mpr ⟨c, hc, rfl⟩

theorem C10_empty_batch_terminates_witness :
    stream_frames ([] : List Nat) 30 0
      ⟨fun _ => [7], fun _ _ => true, fun _ => 0⟩ =
      some [Event.send 7 (Msg.endMarker 0) true] :=
  (C10_empty_batch_terminates 30 0 ⟨fun _ => [7], fun _ _ => true, fun _ => 0⟩
    (by decide) (by norm_num)).1

/-! ## Pacing characterization of the streaming loop -/

theorem sleepsOf_streamLoop {α : Type} (itv st : ℚ) (env : Env α) (fs : List α) :
    ∀ i : Nat,
      sleepsOf (streamLoop itv st env i fs) =
        ((List.range fs.length).map (fun j => i + j)).filterMap (fun k =>
          if env.timeAt k < st + ((k : ℚ) + 1) * itv
          then some (st + ((k : ℚ) + 1) * itv - env.timeAt k) else none) := by
  induction fs with
  | nil => intro i; rfl
  | cons f rest ih =>
      intro i
      rw [streamLoop, sleepsOf_append, sleepsOf_append, sleepsOf_broadcastTo,
        sleepsOf_pacingEvents, ih (i + 1), List.length_cons, List.range_succ_eq_map,
        List.map_cons, List.map_map]
      have hcomp : ((fun j => i + j) ∘ Nat.succ) = (fun j : Nat => (i + 1) + j) := by
        funext j
        show i + Nat.succ j = i + 1 + j
        omega
      rw [hcomp]
      simp only [List.filterMap_cons, List.nil_append, Nat.add_zero]
      by_cases h : env.timeAt i < st + ((i : ℚ) + 1) * itv
      · rw [if_pos h, if_pos h]
        rfl
      · rw [if_neg h, if_neg h]
        rfl

theorem sendsOf_streamLoop_eq {α : Type} (itv st : ℚ) (env env' : Env α)
    (hreg : env'.regAt = env.regAt) (fs : List α) :
    ∀ i, sendsOf (streamLoop itv st env' i fs) = sendsOf (streamLoop itv st env i fs) := by
  induction fs with
  | nil => intro i; rfl
  | cons f rest ih =>
      intro i
      rw [streamLoop, streamLoop, sendsOf_append, sendsOf_append, sendsOf_append,
        sendsOf_append, sendsOf_broadcastTo, sendsOf_broadcastTo, sendsOf_pacingEvents,
        sendsOf_pacingEvents, hreg, ih (i + 1)]

theorem sleepsOf_streamLoop_eq {α : Type} (itv st : ℚ) (env env' : Env α)
    (htime : env'.timeAt = env.timeAt) (fs : List α) :
    ∀ i, sleepsOf (streamLoop itv st env' i fs) = sleepsOf (streamLoop itv st env i fs) := by
  intro i
  rw [sleepsOf_streamLoop, sleepsOf_streamLoop, htime]

/-- Claim C2: for every frame index `i`, the run's pacing sleep is
exactly `target_time - now` with `target_time = start_time + (i + 1) *
(1 / fps)`, taken precisely when `target_time` lies in the future of the
observed clock; when the loop has fallen behind there is no sleep, and
the sequence of send events (frame count and order) is identical for
every clock, so pacing never alters which frames are emitted. -/
theorem C2_pacing {α : Type} (frames : List α) (fps st : ℚ) (env : Env α)
    (hfps : fps ≠ 0) (hreg : env.regAt 0 ≠ []) :
    ∃ tr, stream_frames frames fps st env = some tr ∧
      sleepsOf tr = (List.range frames.length).filterMap (fun i =>
        if env.timeAt i < st + ((i : ℚ) + 1) * (1 / fps)
        then some (st + ((i : ℚ) + 1) * (1 / fps) - env.timeAt i) else none) ∧
      ∀ env' : Env α, env'.regAt = env.regAt → env'.sendOk = env.sendOk →
        ∃ tr', stream_frames frames fps st env' = some tr' ∧
          sendsOf tr' = sendsOf tr := by
  have hstream : stream_frames frames fps st env =
      some (streamLoop (1 / fps) st env 0 frames
        ++ broadcastTo (env.regAt frames.length) (Msg.endMarker frames.length)
            (env.sendOk frames.length)) := by
    unfold stream_frames frame_interval_of
    rw [if_neg hreg, if_neg hfps]
  refine ⟨_, hstream, ?_, ?_⟩
  · rw [sleepsOf_append, sleepsOf_broadcastTo, List.append_nil, sleepsOf_streamLoop]
    simp
  · intro env' hreg' hok'
    have hreg0 : env'.regAt 0 ≠ [] := by
      rw [hreg']
      exact hreg
    have hstream' : stream_frames frames fps st env' =
        some (streamLoop (1 / fps) st env' 0 frames
          ++ broadcastTo (env'.regAt frames.length) (Msg.endMarker frames.length)
              (env'.sendOk frames.length)) := by
      unfold stream_frames frame_interval_of
      rw [if_neg hreg0, if_neg hfps]
    refine ⟨_, hstream', ?_⟩
    rw [sendsOf_append, sendsOf_append, sendsOf_broadcastTo, sendsOf_broadcastTo,
      hreg', sendsOf_streamLoop_eq (1 / fps) st env env' hreg']

theorem C2_pacing_witness :
    ∃ tr, stream_frames ([10, 20] : List Nat) 30 0
        ⟨fun _ => [1], fun _ _ => true, fun _ => 0⟩ = some tr ∧
      sleepsOf tr = (List.range 2).filterMap (fun i =>
        if (fun _ : Nat => (0 : ℚ)) i < 0 + ((i : ℚ) + 1) * (1 / 30)
        then some (0 + ((i : ℚ) + 1) * (1 / 30) - (fun _ : Nat => (0 : ℚ)) i) else none) ∧
      ∀ env' : Env Nat, env'.regAt = (fun _ => [1]) → env'.sendOk = (fun _ _ => true) →
        ∃ tr', stream_frames ([10, 20] : List Nat) 30 0 env' = some tr' ∧
          sendsOf tr' = sendsOf tr :=
  C2_pacing [10, 20] 30 0 ⟨fun _ => [1], fun _ _ => true, fun _ => 0⟩
    (by norm_num) (by decide)

/-! ## Per-viewer delivery -/

theorem receivedBy_send_cons {α : Type} (c a : Nat) (m : Msg α) (b : Bool)
    (tr : List (Event α)) :
    receivedBy c (Event.send a m b :: tr) =
      (if a = c ∧ b = true then [m] else []) ++ receivedBy c tr := by
  cases b
  · simp [receivedBy]
  · by_cases h : a = c
    · simp [receivedBy, h]
    · simp [receivedBy, h]

theorem receivedBy_broadcastTo_not_mem {α : Type} (c : Nat) (reg : List Nat) (m : Msg α)
    (ok : Nat → Bool) (hc : c ∉ reg) :
    receivedBy c (broadcastTo reg m ok) = [] := by
  induction reg with
  | nil => rfl
  | cons a as ih =>
      have ha : ¬(a = c) := fun h => hc (h ▸ List.mem_cons_self a as)
      rw [broadcastTo, List.map_cons]
      rw [show (List.map (fun x => Event.send x m (ok x)) as) = broadcastTo as m ok from rfl]
      rw [receivedBy_send_cons, ih (fun h => hc (List.mem_cons_of_mem a h))]
      simp [ha]

theorem receivedBy_broadcastTo_mem {α : Type} (c : Nat) (reg : List Nat) (m : Msg α)
    (ok : Nat → Bool) (hnd : reg.Nodup) (hc : c ∈ reg) (hok : ok c = true) :
    receivedBy c (broadcastTo reg m ok) = [m] := by
  induction reg with
  | nil => exact absurd hc (List.not_mem_nil c)
  | cons a as ih =>
      rw [List.nodup_cons] at hnd
      rw [broadcastTo, List.map_cons]
      rw [show (List.map (fun x => Event.send x m (ok x)) as) = broadcastTo as m ok from rfl]
      rw [receivedBy_send_cons]
      rcases List.mem_cons.mp hc with hca | hcas
      · subst hca
        rw [receivedBy_broadcastTo_not_mem c as m ok hnd.1]
        simp [hok]
      · have ha : ¬(a = c) := fun h => hnd.1 (h ▸ hcas)
        rw [ih hnd.2 hcas]
        simp [ha]

theorem receivedBy_streamLoop {α : Type} (itv st : ℚ) (env : Env α) (c : Nat)
    (fs : List α) :
    ∀ i : Nat,
      (∀ j, j < fs.length → (env.regAt (i + j)).Nodup) →
      (∀ j, j < fs.length → c ∈ env.regAt (i + j)) →
      (∀ j, j < fs.length → env.sendOk (i + j) c = true) →
      receivedBy c (streamLoop itv st env i fs) = fs.map Msg.frame := by
  induction fs with
  | nil => intro i _ _ _; rfl
  | cons f rest ih =>
      intro i hnd hmem hok
      have hnd0 := hnd 0 (by simp)
      have hmem0 := hmem 0 (by simp)
      have hok0 := hok 0 (by simp)
      rw [Nat.add_zero] at hnd0 hmem0 hok0
      rw [streamLoop, receivedBy_append, receivedBy_append,
        receivedBy_broadcastTo_mem c _ _ _ hnd0 hmem0 hok0, receivedBy_pacingEvents,
        ih (i + 1)
          (fun j hj => by
            have h := hnd (j + 1) (by simpa using Nat.succ_lt_succ hj)
            rwa [show i + (j + 1) = i + 1 + j by omega] at h)
          (fun j hj => by
            have h := hmem (j + 1) (by simpa using Nat.succ_lt_succ hj)
            rwa [show i + (j + 1) = i + 1 + j by omega] at h)
          (fun j hj => by
            have h := hok (j + 1) (by simpa using Nat.succ_lt_succ hj)
            rwa [show i + (j + 1) = i + 1 + j by omega] at h)]
      rfl

/-- Shared helper: a viewer registered at every tick of the run, with
every send to it succeeding, receives exactly the batch's frames in
order followed by the terminal marker. -/
theorem receivedBy_stream_frames {α : Type} (frames : List α) (fps st : ℚ) (env : Env α)
    (c : Nat) (hfps : fps ≠ 0)
    (hnd : ∀ i, i ≤ frames.length → (env.regAt i).Nodup)
    (hmem : ∀ i, i ≤ frames.length → c ∈ env.regAt i)
    (hok : ∀ i, i ≤ frames.length → env.sendOk i c = true) :
    ∃ tr, stream_frames frames fps st env = some tr ∧
      receivedBy c tr = frames.map Msg.frame ++ [Msg.endMarker frames.length] := by
  have hreg : env.regAt 0 ≠ [] := List.ne_nil_of_mem (hmem 0 (Nat.zero_le _))
  have hstream : stream_frames frames fps st env =
      some (streamLoop (1 / fps) st env 0 frames
        ++ broadcastTo (env.regAt frames.length) (Msg.endMarker frames.length)
            (env.sendOk frames.length)) := by
    unfold stream_frames frame_interval_of
    rw [if_neg hreg, if_neg hfps]
  refine ⟨_, hstream, ?_⟩
  rw [receivedBy_append,
    receivedBy_streamLoop (1 / fps) st env c frames 0
      (fun j hj => by simpa using hnd j (Nat.le_of_lt hj))
      (fun j hj => by simpa using hmem j (Nat.le_of_lt hj))
      (fun j hj => by simpa using hok j (Nat.le_of_lt hj)),
    receivedBy_broadcastTo_mem c _ _ _ (hnd frames.length (Nat.le_refl _))
      (hmem frames.length (Nat.le_refl _)) (hok frames.length (Nat.le_refl _))]

/-- Claim C3: every viewer that is registered for the entire run of a
batch of `N` frames (and whose sends succeed, i.e. it actually receives
what is sent) receives exactly the `N` frame messages in batch order —
no frame reordered, dropped, or duplicated — followed by exactly one
terminal marker, which comes last. -/
theorem C3_order_fanout {α : Type} (frames : List α) (fps st : ℚ) (env : Env α)
    (c : Nat) (hfps : fps ≠ 0)
    (hnd : ∀ i, i ≤ frames.length → (env.regAt i).Nodup)
    (hmem : ∀ i, i ≤ frames.length → c ∈ env.regAt i)
    (hok : ∀ i, i ≤ frames.length → env.sendOk i c = true) :
    ∃ tr, stream_frames frames fps st env = some tr ∧
      receivedBy c tr = frames.map Msg.frame ++ [Msg.endMarker frames.length] :=
  receivedBy_stream_frames frames fps st env c hfps hnd hmem hok

theorem C3_order_fanout_witness :
    ∃ tr, stream_frames ([10, 20, 30] : List Nat) 30 0
        ⟨fun _ => [1, 2], fun _ _ => true, fun _ => 0⟩ = some tr ∧
      receivedBy 1 tr =
        [Msg.frame 10, Msg.frame 20, Msg.frame 30, Msg.endMarker 3] :=
  C3_order_fanout [10, 20, 30] 30 0 ⟨fun _ => [1, 2], fun _ _ => true, fun _ => 0⟩ 1
    (by norm_num) (fun _ _ => (by decide : ([1, 2] : List ℕ).Nodup))
    (fun _ _ => (by decide : (1 : ℕ) ∈ [1, 2])) (fun _ _ => rfl)

/-! ## Fault isolation: removing one viewer's events -/

theorem exceptClient_append {α : Type} (b : Nat) (x y : List (Event α)) :
    exceptClient b (x ++ y) = exceptClient b x ++ exceptClient b y := by
  simp [exceptClient]

theorem exceptClient_cons_send {α : Type} (b a : Nat) (m : Msg α) (k : Bool)
    (tr : List (Event α)) :
    exceptClient b (Event.send a m k :: tr) =
      if a = b then exceptClient b tr else Event.send a m k :: exceptClient b tr := by
  by_cases h : a = b
  · simp [exceptClient, h]
  · simp [exceptClient, h]

theorem discardClient_cons (b a : Nat) (as : List Nat) :
    discardClient b (a :: as) =
      if a = b then discardClient b as else a :: discardClient b as := by
  by_cases h : a = b
  · simp [discardClient, h]
  · simp [discardClient, h]

theorem exceptClient_broadcastTo {α : Type} (b : Nat) (reg : List Nat) (m : Msg α)
    (ok : Nat → Bool) :
    exceptClient b (broadcastTo reg m ok) = broadcastTo (discardClient b reg) m ok := by
  induction reg with
  | nil => rfl
  | cons a as ih =>
      rw [broadcastTo, List.map_cons,
        show (List.map (fun x => Event.send x m (ok x)) as) = broadcastTo as m ok from rfl,
        exceptClient_cons_send, discardClient_cons, ih]
      by_cases h : a = b
      · rw [if_pos h, if_pos h]
      · rw [if_neg h, if_neg h]
        rfl

theorem exceptClient_pacingEvents {α : Type} (b : Nat) (itv st : ℚ) (i : Nat) (now : ℚ) :
    exceptClient b (pacingEvents (α := α) itv st i now) = pacingEvents itv st i now := by
  unfold pacingEvents
  by_cases h : (0 : ℚ) < st + ((i : ℚ) + 1) * itv - now
  · rw [if_pos h]
    rfl
  · rw [if_neg h]
    rfl

theorem exceptClient_streamLoop {α : Type} (b : Nat) (itv st : ℚ) (env : Env α)
    (fs : List α) :
    ∀ i, exceptClient b (streamLoop itv st env i fs)
      = streamLoop itv st (eraseViewer b env) i fs := by
  induction fs with
  | nil => intro i; rfl
  | cons f rest ih =>
      intro i
      rw [streamLoop, streamLoop, exceptClient_append, exceptClient_append,
        exceptClient_broadcastTo, exceptClient_pacingEvents, ih (i + 1)]
      rfl

/-- Claim C1: a viewer `b` whose sends always fail never aborts or
delays the run.  The run still completes, and its trace with `b`'s
events removed is exactly the trace of the run in which `b` is absent
from every registry snapshot (same sends to everyone else, same pacing
sleeps); in particular every other viewer registered for the whole run
whose sends succeed still receives all `N` frame messages and the
terminal marker. -/
theorem C1_fault_isolation {α : Type} (frames : List α) (fps st : ℚ) (env : Env α)
    (b : Nat) (hfps : fps ≠ 0)
    (_hfail : ∀ i, env.sendOk i b = false)
    (hother : discardClient b (env.regAt 0) ≠ []) :
    ∃ tr tr', stream_frames frames fps st env = some tr ∧
      stream_frames frames fps st (eraseViewer b env) = some tr' ∧
      exceptClient b tr = tr' ∧
      ∀ c, c ≠ b →
        (∀ i, i ≤ frames.length → (env.regAt i).Nodup) →
        (∀ i, i ≤ frames.length → c ∈ env.regAt i) →
        (∀ i, i ≤ frames.length → env.sendOk i c = true) →
        receivedBy c tr = frames.map Msg.frame ++ [Msg.endMarker frames.length] := by
  have hreg : env.regAt 0 ≠ [] := by
    intro h
    apply hother
    rw [h]
    rfl
  have hstream : stream_frames frames fps st env =
      some (streamLoop (1 / fps) st env 0 frames
        ++ broadcastTo (env.regAt frames.length) (Msg.endMarker frames.length)
            (env.sendOk frames.length)) := by
    unfold stream_frames frame_interval_of
    rw [if_neg hreg, if_neg hfps]
  have hstream' : stream_frames frames fps st (eraseViewer b env) =
      some (streamLoop (1 / fps) st (eraseViewer b env) 0 frames
        ++ broadcastTo ((eraseViewer b env).regAt frames.length)
            (Msg.endMarker frames.length) ((eraseViewer b env).sendOk frames.length)) := by
    unfold stream_frames frame_interval_of
    rw [show (eraseViewer b env).regAt 0 = discardClient b (env.regAt 0) from rfl,
      if_neg hother, if_neg hfps]
  refine ⟨_, _, hstream, hstream', ?_, ?_⟩
  · rw [exceptClient_append, exceptClient_broadcastTo, exceptClient_streamLoop]
    rfl
  · intro c hcb hnd hmem hok
    obtain ⟨tr2, htr2, hrec⟩ :=
      receivedBy_stream_frames frames fps st env c hfps hnd hmem hok
    have : tr2 = streamLoop (1 / fps) st env 0 frames
        ++ broadcastTo (env.regAt frames.length) (Msg.endMarker frames.length)
            (env.sendOk frames.length) :=
      Option.some.inj (htr2.symm.trans hstream)
    rw [this] at hrec
    exact hrec

theorem C1_fault_isolation_witness :
    ∃ tr tr', stream_frames ([10, 20] : List Nat) 30 0
        ⟨fun _ => [1, 2], fun _ c => decide (c = 1), fun _ => 0⟩ = some tr ∧
      stream_frames ([10, 20] : List Nat) 30 0
        (eraseViewer 2 ⟨fun _ => [1, 2], fun _ c => decide (c = 1), fun _ => 0⟩)
        = some tr' ∧
      exceptClient 2 tr = tr' ∧
      ∀ c, c ≠ 2 →
        (∀ i, i ≤ 2 → (([1, 2] : List Nat)).Nodup) →
        (∀ i, i ≤ 2 → c ∈ ([1, 2] : List Nat)) →
        (∀ i, i ≤ 2 → decide (c = 1) = true) →
        receivedBy c tr = [Msg.frame 10, Msg.frame 20, Msg.endMarker 2] :=
  C1_fault_isolation [10, 20] 30 0
    ⟨fun _ => [1, 2], fun _ c => decide (c = 1), fun _ => 0⟩ 2
    (by norm_num) (fun _ => rfl) (by decide)

/-! ## Terminal marker -/

theorem mem_pacingEvents {α : Type} (itv st : ℚ) (i : Nat) (now : ℚ) (e : Event α)
    (h : e ∈ pacingEvents (α := α) itv st i now) : ∃ d, e = Event.sleep d := by
  unfold pacingEvents at h
  by_cases hc : (0 : ℚ) < st + ((i : ℚ) + 1) * itv - now
  · rw [if_pos hc] at h
    exact ⟨_, List.mem_singleton.mp h⟩
  · rw [if_neg hc] at h
    exact absurd h (List.not_mem_nil e)

theorem endMarker_not_mem_streamLoop {α : Type} (itv st : ℚ) (env : Env α)
    (fs : List α) :
    ∀ i c n k, Event.send c (Msg.endMarker n) k ∉ streamLoop itv st env i fs := by
  induction fs with
  | nil => intro i c n k h; exact absurd h (List.not_mem_nil _)
  | cons f rest ih =>
      intro i c n k h
      rw [streamLoop] at h
      rcases List.mem_append.mp h with h1 | h2
      · rcases List.mem_append.mp h1 with ha | hb
        · simp [broadcastTo] at ha
        · obtain ⟨d, hd⟩ := mem_pacingEvents itv st i (env.timeAt i) _ hb
          simp at hd
      · exact ih (i + 1) c n k h2

theorem endMarkerSendsTo_append {α : Type} (c : Nat) (x y : List (Event α)) :
    endMarkerSendsTo c (x ++ y) = endMarkerSendsTo c x + endMarkerSendsTo c y := by
  unfold endMarkerSendsTo
  rw [List.filter_append, List.length_append]

theorem endMarkerSendsTo_eq_zero {α : Type} (c : Nat) (tr : List (Event α))
    (h : ∀ n k, Event.send c (Msg.endMarker n) k ∉ tr) :
    endMarkerSendsTo c tr = 0 := by
  induction tr with
  | nil => rfl
  | cons e es ih =>
      have hes : ∀ n k, Event.send c (Msg.endMarker n) k ∉ es :=
        fun n k hm => h n k (List.mem_cons_of_mem e hm)
      have hpred : isEndMarkerSendTo c e = false := by
        cases e with
        | sleep d => rfl
        | send c' m k =>
            cases m with
            | frame f => rfl
            | status t => rfl
            | endMarker n =>
                simp only [isEndMarkerSendTo, beq_eq_false_iff_ne, ne_eq]
                intro hcc
                exact h n k (by rw [hcc]; exact List.mem_cons_self _ _)
      unfold endMarkerSendsTo at ih ⊢
      rw [List.filter_cons, hpred]
      simp only [Bool.false_eq_true, if_false]
      exact ih hes

theorem endMarkerSendsTo_cons_send {α : Type} (c a : Nat) (m : Msg α) (k : Bool)
    (tr : List (Event α)) :
    endMarkerSendsTo c (Event.send a m k :: tr) =
      endMarkerSendsTo c tr +
        (match m with | Msg.endMarker _ => if a = c then 1 else 0 | _ => 0) := by
  match m with
  | Msg.frame f => simp [endMarkerSendsTo, isEndMarkerSendTo, List.filter_cons]
  | Msg.status t => simp [endMarkerSendsTo, isEndMarkerSendTo, List.filter_cons]
  | Msg.endMarker n =>
      by_cases h : a = c
      · simp [endMarkerSendsTo, isEndMarkerSendTo, List.filter_cons, h]
      · simp [endMarkerSendsTo, isEndMarkerSendTo, List.filter_cons, h]

theorem endMarkerSendsTo_broadcast_not_mem {α : Type} (c : Nat) (reg : List Nat)
    (n : Nat) (ok : Nat → Bool) (hc : c ∉ reg) :
    endMarkerSendsTo (α := α) c (broadcastTo reg (Msg.endMarker n) ok) = 0 := by
  induction reg with
  | nil => rfl
  | cons a as ih =>
      have ha : ¬(a = c) := fun h => hc (h ▸ List.mem_cons_self a as)
      rw [broadcastTo, List.map_cons,
        show (List.map (fun x => Event.send x (Msg.endMarker n) (ok x)) as)
          = broadcastTo as (Msg.endMarker n) ok from rfl,
        endMarkerSendsTo_cons_send, ih (fun hm => hc (List.mem_cons_of_mem a hm))]
      simp [ha]

theorem endMarkerSendsTo_broadcast_marker {α : Type} (c : Nat) (reg : List Nat)
    (n : Nat) (ok : Nat → Bool) (hnd : reg.Nodup) (hc : c ∈ reg) :
    endMarkerSendsTo (α := α) c (broadcastTo reg (Msg.endMarker n) ok) = 1 := by
  induction reg with
  | nil => exact absurd hc (List.not_mem_nil c)
  | cons a as ih =>
      rw [List.nodup_cons] at hnd
      rw [broadcastTo, List.map_cons,
        show (List.map (fun x => Event.send x (Msg.endMarker n) (ok x)) as)
          = broadcastTo as (Msg.endMarker n) ok from rfl,
        endMarkerSendsTo_cons_send]
      rcases List.mem_cons.mp hc with hca | hcas
      · subst hca
        rw [endMarkerSendsTo_broadcast_not_mem c as n ok hnd.1]
        simp
      · have ha : ¬(a = c) := fun h => hnd.1 (h ▸ hcas)
        rw [ih hnd.2 hcas]
        simp [ha]

theorem endMarkerSendsTo_streamLoop {α : Type} (c : Nat) (itv st : ℚ) (env : Env α)
    (fs : List α) (i : Nat) :
    endMarkerSendsTo c (streamLoop itv st env i fs) = 0 :=
  endMarkerSendsTo_eq_zero c _
    (fun n k => endMarker_not_mem_streamLoop itv st env fs i c n k)

/-- Claim C5: for a run over a non-empty frame list that passes the
initial registry check, the trace ends with one fire-and-forget
broadcast of `{"end": true, "total_frames": N}` (`N` the batch length)
to the registry membership read at that moment; no terminal-marker send
occurs anywhere earlier, and each member of that final snapshot is sent
the marker exactly once — it is the final message of the run. -/
theorem C5_terminal_marker {α : Type} (frames : List α) (fps st : ℚ) (env : Env α)
    (_hne : frames ≠ []) (hfps : fps ≠ 0) (hreg : env.regAt 0 ≠ []) :
    ∃ pre, stream_frames frames fps st env =
        some (pre ++ broadcastTo (env.regAt frames.length)
          (Msg.endMarker frames.length) (env.sendOk frames.length)) ∧
      (∀ c n k, Event.send c (Msg.endMarker n) k ∉ pre) ∧
      ((env.regAt frames.length).Nodup →
        ∀ c, c ∈ env.regAt frames.length →
          endMarkerSendsTo c (pre ++ broadcastTo (env.regAt frames.length)
            (Msg.endMarker frames.length) (env.sendOk frames.length)) = 1) := by
  refine ⟨streamLoop (1 / fps) st env 0 frames, ?_, ?_, ?_⟩
  · unfold stream_frames frame_interval_of
    rw [if_neg hreg, if_neg hfps]
  · exact fun c n k => endMarker_not_mem_streamLoop (1 / fps) st env frames 0 c n k
  · intro hnd c hc
    rw [endMarkerSendsTo_append, endMarkerSendsTo_streamLoop,
      endMarkerSendsTo_broadcast_marker c _ _ _ hnd hc]

theorem C5_terminal_marker_witness :
    ∃ pre, stream_frames ([10] : List Nat) 30 0
        ⟨fun _ => [1], fun _ _ => true, fun _ => 0⟩ =
        some (pre ++ broadcastTo [1] (Msg.endMarker 1) (fun _ => true)) ∧
      (∀ c n k, Event.send c (Msg.endMarker n) k ∉ pre) ∧
      (([1] : List Nat).Nodup →
        ∀ c, c ∈ ([1] : List Nat) →
          endMarkerSendsTo c
            (pre ++ broadcastTo [1] (Msg.endMarker 1) (fun _ => true)) = 1) :=
  C5_terminal_marker [10] 30 0 ⟨fun _ => [1], fun _ _ => true, fun _ => 0⟩
    (by decide) (by norm_num) (by decide)

/-! ## Failure handling -/

/-- Claim C6: a failed send to an individual viewer is caught and never
escalated: the run completes, issuing exactly the same send attempts
and the same pacing sleeps no matter which sends fail (environments
differing only in send outcomes produce identical message and sleep
sequences); and the viewer-session handler — which is what observes the
broken connection — removes its viewer from the registry on every one
of its termination paths (normal end, `ConnectionClosed`, any other
exception), so the failed viewer's deregistration follows the failure. -/
theorem C6_deregister_on_failure {α : Type} (frames : List α) (fps st : ℚ)
    (env env' : Env α) (hfps : fps ≠ 0)
    (hreg : env'.regAt = env.regAt) (htime : env'.timeAt = env.timeAt) :
    (∃ tr tr', stream_frames frames fps st env = some tr ∧
      stream_frames frames fps st env' = some tr' ∧
      sendsOf tr' = sendsOf tr ∧ sleepsOf tr' = sleepsOf tr) ∧
    ∀ c reg e, c ∉ (ws_handler c reg e).1 := by
  constructor
  · by_cases hempty : env.regAt 0 = []
    · refine ⟨[], [], ?_, ?_, rfl, rfl⟩
      · unfold stream_frames
        rw [if_pos hempty]
      · unfold stream_frames
        rw [hreg, if_pos hempty]
    · have hempty' : ¬(env'.regAt 0 = []) := by
        rw [hreg]
        exact hempty
      have hstream : stream_frames frames fps st env =
          some (streamLoop (1 / fps) st env 0 frames
            ++ broadcastTo (env.regAt frames.length) (Msg.endMarker frames.length)
                (env.sendOk frames.length)) := by
        unfold stream_frames frame_interval_of
        rw [if_neg hempty, if_neg hfps]
      have hstream' : stream_frames frames fps st env' =
          some (streamLoop (1 / fps) st env' 0 frames
            ++ broadcastTo (env'.regAt frames.length) (Msg.endMarker frames.length)
                (env'.sendOk frames.length)) := by
        unfold stream_frames frame_interval_of
        rw [if_neg hempty', if_neg hfps]
      refine ⟨_, _, hstream, hstream', ?_, ?_⟩
      · rw [sendsOf_append, sendsOf_append, sendsOf_broadcastTo, sendsOf_broadcastTo,
          hreg, sendsOf_streamLoop_eq (1 / fps) st env env' hreg]
      · rw [sleepsOf_append, sleepsOf_append, sleepsOf_broadcastTo, sleepsOf_broadcastTo,
          sleepsOf_streamLoop_eq (1 / fps) st env env' htime]
  · intro c reg e
    cases e <;> simp [ws_handler, discardClient, List.mem_filter]

theorem C6_deregister_on_failure_witness :
    (∃ tr tr', stream_frames ([10, 20] : List Nat) 30 0
        ⟨fun _ => [1], fun _ _ => true, fun _ => 0⟩ = some tr ∧
      stream_frames ([10, 20] : List Nat) 30 0
        ⟨fun _ => [1], fun _ _ => false, fun _ => 0⟩ = some tr' ∧
      sendsOf tr' = sendsOf tr ∧ sleepsOf tr' = sleepsOf tr) ∧
    ∀ c reg e, c ∉ (ws_handler c reg e).1 :=
  C6_deregister_on_failure [10, 20] 30 0
    ⟨fun _ => [1], fun _ _ => true, fun _ => 0⟩
    ⟨fun _ => [1], fun _ _ => false, fun _ => 0⟩
    (by norm_num) rfl rfl

/-! ## Ingest validation -/

/-- Claim C7 counterexample: an unparseable body (positive
`Content-Length`, `json.loads` raising) does NOT get a client-error
response — the exception reaches the handler-wide `except`, which
closes the connection without writing any response.  No stream is
started, but the claim's "replies with a client-error response" is
false for this input. -/
theorem C7_counterexample :
    frames_ingest (fun _ => none) 1 "x" = IngestOutcome.crashed ∧
    respondsClientError (frames_ingest (fun _ => none) 1 "x") = false ∧
    startsStream (frames_ingest (fun _ => none) 1 "x") = false ∧
    writesResponse (frames_ingest (fun _ => none) 1 "x") = false :=
  ⟨rfl, rfl, rfl, rfl⟩

/-- Claim C7 amended: a missing or empty body is rejected with the `400`
client-error response; an unparseable body makes the handler crash and
close the connection without writing any response; in every malformed
case no streaming run is started (a run starts only when the body
parses to a JSON object). -/
theorem C7_malformed_ingest (parse : String → Option JValue) (content_length : Nat)
    (body : String) :
    (content_length = 0 →
      frames_ingest parse content_length body = IngestOutcome.badRequest) ∧
    (0 < content_length → parse body = none →
      frames_ingest parse content_length body = IngestOutcome.crashed) ∧
    (startsStream (frames_ingest parse content_length body) = true →
      0 < content_length ∧ ∃ fields, parse body = some (JValue.obj fields)) := by
  refine ⟨?_, ?_, ?_⟩
  · intro h
    unfold frames_ingest
    rw [h]
    rfl
  · intro hcl hp
    unfold frames_ingest
    rw [if_pos hcl, hp]
  · intro hs
    unfold frames_ingest at hs
    by_cases hcl : 0 < content_length
    · rw [if_pos hcl] at hs
      refine ⟨hcl, ?_⟩
      cases hpb : parse body with
      | none =>
          rw [hpb] at hs
          simp [startsStream] at hs
      | some j =>
          cases j with
          | obj fields => exact ⟨fields, rfl⟩
          | num q => rw [hpb] at hs; simp [startsStream] at hs
          | str s => rw [hpb] at hs; simp [startsStream] at hs
          | bool b => rw [hpb] at hs; simp [startsStream] at hs
          | null => rw [hpb] at hs; simp [startsStream] at hs
          | arr xs => rw [hpb] at hs; simp [startsStream] at hs
    · rw [if_neg hcl] at hs
      simp [startsStream] at hs

theorem C7_malformed_ingest_witness :
    frames_ingest (fun _ => none) 0 "" = IngestOutcome.badRequest ∧
    frames_ingest (fun _ => none) 3 "abc" = IngestOutcome.crashed :=
  ⟨(C7_malformed_ingest (fun _ => none) 0 "").1 rfl,
   (C7_malformed_ingest (fun _ => none) 3 "abc").2.1 (by norm_num) rfl⟩

/-- Claim C8 counterexample: the ingest endpoint performs no fps
validation.  A body whose `fps` field is `0` is accepted and handed to
the broadcaster as-is, where `1.0 / fps` divides by zero: with a viewer
connected the run crashes (`ZeroDivisionError`). -/
theorem C8_counterexample :
    frames_ingest
        (fun _ => some (JValue.obj [("fps", JValue.num 0), ("frames", JValue.arr [])]))
        1 "b"
      = IngestOutcome.streaming (JValue.arr []) (JValue.num 0) ∧
    frame_interval_of 0 = none ∧
    stream_frames ([5] : List Nat) 0 0 ⟨fun _ => [1], fun _ _ => true, fun _ => 0⟩
      = none :=
  ⟨rfl, rfl, rfl⟩

/-- Claim C8 amended: the fps invariant is not enforced at ingest, but
for every batch whose rate is nonzero the interval computation
`1 / fps` succeeds and the streaming run never crashes. -/
theorem C8_division_safety {α : Type} (fps : ℚ) (hfps : fps ≠ 0) (frames : List α)
    (st : ℚ) (env : Env α) :
    frame_interval_of fps = some (1 / fps) ∧
    (stream_frames frames fps st env).isSome = true := by
  constructor
  · unfold frame_interval_of
    rw [if_neg hfps]
  · unfold stream_frames frame_interval_of
    by_cases h : env.regAt 0 = []
    · rw [if_pos h]
      rfl
    · rw [if_neg h, if_neg hfps]
      rfl

theorem C8_division_safety_witness :
    frame_interval_of 30 = some (1 / 30) ∧
    (stream_frames ([5] : List Nat) 30 0
      ⟨fun _ => [1], fun _ _ => true, fun _ => 0⟩).isSome = true :=
  C8_division_safety 30 (by norm_num) [5] 0 ⟨fun _ => [1], fun _ _ => true, fun _ => 0⟩

/-! ## Status broadcast -/

/-- Claim C9: for a status request whose body parses to an object with a
string `text` field, the handler broadcasts
`{"status": text, "type": "status"}` to every currently connected
viewer, and the `{"ok": true}` response is written only after that
broadcast completes — it is the final action of the branch; no pacing
sleep occurs anywhere in the status path. -/
theorem C9_status_order {α : Type} (parse : String → Option JValue) (cl : Nat)
    (body : String) (reg : List Nat) (sendOk : Nat → Bool)
    (fields : List (String × JValue)) (t : String)
    (hcl : 0 < cl) (hp : parse body = some (JValue.obj fields))
    (ht : jGet fields "text" = some (JValue.str t)) :
    ∃ acts : List (HAction α),
      status_handler parse cl body reg sendOk = some acts ∧
      acts = (reg.map fun c =>
          HAction.ev (Event.send c (Msg.status (JValue.str t)) (sendOk c)))
        ++ [HAction.writeOkResponse] ∧
      (∀ c, c ∈ reg →
        HAction.ev (Event.send c (Msg.status (JValue.str t)) (sendOk c)) ∈ acts) ∧
      acts.getLast? = some (HAction.writeOkResponse (α := α)) ∧
      (∀ d : ℚ, HAction.ev (Event.sleep d) ∉ acts) := by
  have hacts : (broadcastTo reg (Msg.status (JValue.str t)) sendOk).map
      (HAction.ev (α := α)) = reg.map fun c =>
        HAction.ev (Event.send c (Msg.status (JValue.str t)) (sendOk c)) := by
    simp [broadcastTo, List.map_map]
  have hrun : status_handler (α := α) parse cl body reg sendOk =
      some ((broadcastTo reg (Msg.status (JValue.str t)) sendOk).map HAction.ev
        ++ [HAction.writeOkResponse]) := by
    unfold status_handler
    rw [if_pos hcl]
    simp [hp, ht]
  refine ⟨_, hrun, hacts ▸ rfl, ?_, ?_, ?_⟩
  · intro c hc
    rw [hacts]
    exact List.mem_append.mpr (Or.inl (List.mem_map.mpr ⟨c, hc, rfl⟩))
  · simp
  · intro d hmem
    rcases List.mem_append.mp hmem with h1 | h2
    · simp [broadcastTo] at h1
    · simp at h2

theorem C9_status_order_witness :
    ∃ acts : List (HAction Nat),
      status_handler (fun s => if s = "B"
          then some (JValue.obj [("text", JValue.str "hi")]) else none)
        1 "B" [1, 2] (fun _ => true) = some acts ∧
      acts = (([1, 2] : List Nat).map fun c =>
          HAction.ev (Event.send c (Msg.status (JValue.str "hi")) true))
        ++ [HAction.writeOkResponse] ∧
      (∀ c, c ∈ ([1, 2] : List Nat) →
        HAction.ev (Event.send c (Msg.status (JValue.str "hi")) true) ∈ acts) ∧
      acts.getLast? = some (HAction.writeOkResponse (α := Nat)) ∧
      (∀ d : ℚ, HAction.ev (Event.sleep d) ∉ acts) :=
  C9_status_order (fun s => if s = "B"
      then some (JValue.obj [("text", JValue.str "hi")]) else none)
    1 "B" [1, 2] (fun _ => true) [("text", JValue.str "hi")] "hi"
    (by norm_num) rfl rfl

end A2FBridge
